import Mathlib

/-
Verification of the cyber-calendar client (src/static/app.js).

The client keeps two globals (`token`, `me`), wraps every network call in
`api` (which attaches a Bearer header when `token` is set and throws
`Error(data.detail || "요청 실패")` on a non-ok response), collects passcodes
through a promise-based modal (`showModal`), and drives create/edit/delete
flows from the FullCalendar `select` and `eventClick` callbacks, with a
client-side ownership gate in `eventClick`.

The embedding below is a functional small-step machine: the globals, the
single modal handler slot, and logs of the Gateway calls issued and the
alert messages surfaced.
-/

namespace CyberCal

/-- A directory user as stored in `me` after login: `{id, name, color}`. -/
structure User where
  id : String
  name : String
  color : String
deriving DecidableEq

/-- The fields of a rendered calendar event that `eventClick` reads:
`ev.id`, `ev.title`, `ev.extendedProps.ownerUserId`, `ev.extendedProps.ownerName`,
`ev.extendedProps.note`. -/
structure EventInfo where
  id : String
  title : String
  ownerUserId : String
  ownerName : String
  note : Option String
deriving DecidableEq

/-- JS `d || dflt` where `d` is a nullable string: `null`/`undefined` and the
empty string are falsy. Used for `data.detail || "요청 실패"`. -/
def jsStringOr : Option String → String → String
  | none, dflt => dflt
  | some v, dflt => if v = "" then dflt else v

/-- JS `s || null` on a string: the empty string collapses to `null`.
Used for `note: note || null` in the create body. -/
def jsStringOrNone (s : String) : Option String :=
  if s = "" then none else some s

/-- JS `a || b || null` where `a` is a string and `b` a nullable string.
Used for `note: note || ev.extendedProps.note || null` in the update body. -/
def jsNoteChain (a : String) (b : Option String) : Option String :=
  if a = "" then
    match b with
    | none => none
    | some s => if s = "" then none else some s
  else some a

/-- An HTTP response as `api` sees it: the status code and the optional
`detail` field of the decoded JSON body. -/
structure HttpResponse where
  status : Nat
  detail : Option String
deriving DecidableEq

/-- `res.ok` of fetch: status in the range 200-299. -/
def resOk (r : HttpResponse) : Bool :=
  decide (200 ≤ r.status) && decide (r.status < 300)

/-- Outcome of an `api` call: success, or a thrown `Error` carrying only a
message string (app.js line 15: `throw new Error(data.detail || "요청 실패")`). -/
inductive ApiResult where
  | ok
  | err (message : String)
deriving DecidableEq

/-- The message of the rejection produced by the modal's cancel button
(app.js line 37: `reject(new Error("취소"))`). -/
def cancelMessage : String := "취소"

/-- The fallback message used when an error response has no usable `detail`. -/
def genericFailMessage : String := "요청 실패"

/-- `api` error handling (app.js lines 12-17): on a non-ok response throw an
`Error` whose message is `data.detail || "요청 실패"`; the status code is
consulted only through `res.ok`. -/
def apiResult (r : HttpResponse) : ApiResult :=
  if resOk r then .ok else .err (jsStringOr r.detail genericFailMessage)

/-- The Authorization header `api` attaches (app.js line 8):
present exactly when `token` is set, with the value `Bearer <token>`. -/
def apiAuthHeader (token : Option String) : Option String :=
  token.map (fun t => "Bearer " ++ t)

/-- The catch clauses of `select` and `eventClick` (app.js lines 189, 248):
`if (e.message !== "취소") alert(e.message)` — the message surfaced to the
human, or `none` when the error is swallowed as a cancellation. -/
def surfaceError (msg : String) : Option String :=
  if msg = cancelMessage then none else some msg

/-- Error kinds of the spec's taxonomy. This type does not appear in app.js;
it is declared only to compare the code's behavior against the spec's
status-semantics classification. -/
inductive ErrorKind where
  | authError
  | notFound
  | forbidden
  | generic
deriving DecidableEq

/-- Follows the spec's words, not the source: "any non-success status is
treated as a failure whose kind is inferred from status semantics
(unauthorized → AuthError, not-found → NotFound, forbidden → Forbidden,
else generic)". Declared for refinement comparison with `apiResult`. -/
def specKindOf (status : Nat) : ErrorKind :=
  if status = 401 then .authError
  else if status = 404 then .notFound
  else if status = 403 then .forbidden
  else .generic

/-- JS `String.prototype.trim`: strips leading and trailing whitespace,
modelled structurally over the character list. -/
def jsTrim (s : String) : String :=
  ⟨((s.data.dropWhile Char.isWhitespace).reverse.dropWhile Char.isWhitespace).reverse⟩

/-- The value the modal resolves with on submit (app.js lines 40-45):
both fields trimmed, the passcode forwarded even when empty. -/
structure PendingConfirmation where
  passcode : String
  note : String
deriving DecidableEq

/-- The modal OK handler (app.js lines 40-45): trims the raw field values and
resolves with them; no local validation. -/
def submitModal (passRaw noteRaw : String) : PendingConfirmation :=
  { passcode := jsTrim passRaw, note := jsTrim noteRaw }

/-- A confirmation flow captured by the closure awaiting `showModal`:
the create body fields, or the clicked event for delete, or the clicked
event plus the already-collected new title for edit. -/
inductive Flow where
  | create (title startStr endStr : String) (allDay : Bool)
  | del (ev : EventInfo)
  | edit (ev : EventInfo) (newTitle : String)
deriving DecidableEq

/-- A request the client dispatches through `api`, with the fields the claims
are about: the Authorization header value recorded at issue time, and the
payload fields of each route. -/
inductive GatewayCall where
  | login (userId passcode : String) (auth : Option String)
  | list (startStr endStr : String) (auth : Option String)
  | createEvent (title startStr endStr : String) (allDay : Bool)
      (note : Option String) (passcode : String) (auth : Option String)
  | updateEvent (eventId title : String) (note : Option String)
      (passcode : String) (auth : Option String)
  | deleteEvent (eventId : String) (passcode : String) (auth : Option String)
deriving DecidableEq

/-- The mutating routes: POST /api/events, PUT /api/events/:id,
DELETE /api/events/:id. -/
def GatewayCall.isMutation : GatewayCall → Bool
  | .createEvent _ _ _ _ _ _ _ => true
  | .updateEvent _ _ _ _ _ => true
  | .deleteEvent _ _ _ => true
  | _ => false

/-- The Authorization header a call was issued with. -/
def GatewayCall.auth : GatewayCall → Option String
  | .login _ _ a => a
  | .list _ _ a => a
  | .createEvent _ _ _ _ _ _ a => a
  | .updateEvent _ _ _ _ a => a
  | .deleteEvent _ _ a => a

/-- The passcode a mutation call carries (body field or query parameter). -/
def GatewayCall.passcodeOf : GatewayCall → Option String
  | .login _ p _ => some p
  | .list _ _ _ => none
  | .createEvent _ _ _ _ _ p _ => some p
  | .updateEvent _ _ _ p _ => some p
  | .deleteEvent _ p _ => some p

/-- The note field a mutation body carries, when the route has one. -/
def GatewayCall.noteOf : GatewayCall → Option (Option String)
  | .createEvent _ _ _ _ n _ _ => some n
  | .updateEvent _ _ n _ _ => some n
  | _ => none

/-- State of the client page: the globals `token` and `me`, whether the
calendar is mounted (`initCalendar` ran and `destroy` has not), the single
modal handler slot (tagged with a serial number so that superseded requests
can be talked about), the serial counter, the serials whose request resolved
into a Gateway call, and logs of issued calls and surfaced alerts. -/
structure ClientState where
  token : Option String
  me : Option User
  calendarOpen : Bool
  modal : Option (Nat × Flow)
  counter : Nat
  resolvedIds : List Nat
  calls : List GatewayCall
  alerts : List String
deriving DecidableEq

/-- The page as loaded: no session, no calendar, no modal, nothing issued. -/
def initState : ClientState :=
  { token := none, me := none, calendarOpen := false, modal := none,
    counter := 0, resolvedIds := [], calls := [], alerts := [] }

/-- `showModal` (app.js lines 20-47): unconditionally installs the new
request's handlers in the singular OK/Cancel slot, superseding whatever
request occupied it; a superseded request's resolve can never fire again. -/
def showModalStep (s : ClientState) (f : Flow) : ClientState :=
  { s with modal := some (s.counter, f), counter := s.counter + 1 }

/-- The refusal alert of the ownership gate (app.js line 202), naming the
event's actual owner. -/
def notYourEventMessage (ownerName : String) : String :=
  "이 일정은 " ++ ownerName ++ " 작성이라 너는 손대면 안 됨."

/-- The alert shown for an unrecognized action word (app.js line 246). -/
def invalidActionMessage : String := "edit 또는 delete만."

/-- `prompt("새 제목", ev.title) ?? ev.title` (app.js line 225): a dismissed
prompt (`null`) falls back to the event's current title. -/
def editNewTitle (titleResp : Option String) (curTitle : String) : String :=
  titleResp.getD curTitle

/-- The owned-event part of `eventClick` (app.js lines 206-246): dispatch on
the action word; `delete` and `edit` open the confirmation modal with the
corresponding flow, anything else alerts, a dismissed or empty prompt
returns silently. -/
def eventClickOwned (s : ClientState) (ev : EventInfo)
    (actionResp titleResp : Option String) : ClientState :=
  match actionResp with
  | none => s
  | some action =>
    if action = "" then s
    else if action = "delete" then showModalStep s (.del ev)
    else if action = "edit" then
      showModalStep s (.edit ev (editNewTitle titleResp ev.title))
    else { s with alerts := s.alerts ++ [invalidActionMessage] }

/-- `eventClick` (app.js lines 193-250): `isMine = me && ownerId === me.id`;
when false (no session, or a different owner) alert the refusal naming the
owner and return; otherwise run the owned-event dispatch. -/
def eventClickStep (s : ClientState) (ev : EventInfo)
    (actionResp titleResp : Option String) : ClientState :=
  match s.me with
  | none => { s with alerts := s.alerts ++ [notYourEventMessage ev.ownerName] }
  | some u =>
    if ev.ownerUserId = u.id then eventClickOwned s ev actionResp titleResp
    else { s with alerts := s.alerts ++ [notYourEventMessage ev.ownerName] }

/-- The `select` callback (app.js lines 164-191): prompt for a title; a
dismissed or blank prompt aborts silently, otherwise open the confirmation
modal with the create flow. -/
def selectStep (s : ClientState) (titleResp : Option String)
    (startStr endStr : String) (allDay : Bool) : ClientState :=
  match titleResp with
  | none => s
  | some t =>
    if t = "" then s
    else showModalStep s (.create t startStr endStr allDay)

/-- The `api` call each flow performs once its confirmation resolves
(app.js lines 175-185, 216-218, 233-240), reading the global `token` at
call time: create sends `note || null`, update sends
`note || ev.extendedProps.note || null`, delete sends the passcode as a
query parameter. -/
def flowCall (f : Flow) (pc : PendingConfirmation) (token : Option String) :
    GatewayCall :=
  match f with
  | .create t st en ad =>
      .createEvent t st en ad (jsStringOrNone pc.note) pc.passcode
        (apiAuthHeader token)
  | .del ev => .deleteEvent ev.id pc.passcode (apiAuthHeader token)
  | .edit ev newTitle =>
      .updateEvent ev.id newTitle (jsNoteChain pc.note ev.note) pc.passcode
        (apiAuthHeader token)

/-- The modal OK handler firing (app.js lines 40-45) and the awaiting flow
continuing: the trimmed confirmation is consumed by exactly one Gateway
call, the slot is cleared, and the request's serial is recorded as
resolved. The Gateway's response to the mutation is external. -/
def modalOkStep (s : ClientState) (passRaw noteRaw : String) : ClientState :=
  match s.modal with
  | none => s
  | some (i, f) =>
    { s with modal := none,
             resolvedIds := s.resolvedIds ++ [i],
             calls := s.calls ++ [flowCall f (submitModal passRaw noteRaw) s.token] }

/-- The modal Cancel handler firing (app.js lines 35-38): the slot is
cleared and the awaiting flow's catch swallows the `취소` rejection, so no
Gateway call is issued and `surfaceError` yields no alert. -/
def modalCancelStep (s : ClientState) : ClientState :=
  match s.modal with
  | none => s
  | some _ =>
    { s with modal := none,
             alerts := s.alerts ++ (surfaceError cancelMessage).toList }

/-- `logoutBtn.onclick` (app.js lines 115-126) restricted to the modelled
state: clears `token` and `me` unconditionally and destroys the calendar,
which stops its date-range querying. -/
def logoutStep (s : ClientState) : ClientState :=
  { s with token := none, me := none, calendarOpen := false }

/-- Result of the login POST as the handler sees it. -/
inductive LoginResult where
  | ok (tok : String) (u : User)
  | fail (detail : Option String)
deriving DecidableEq

/-- `loginBtn.onclick` (app.js lines 93-113): issue the login call through
`api` (so the Authorization header follows the current `token`); on success
store the session and mount the calendar, on failure alert `e.message`,
which is the response's `detail || "요청 실패"`. -/
def loginStep (s : ClientState) (userId passcode : String) (r : LoginResult) :
    ClientState :=
  match r with
  | .ok tok u =>
      { s with calls := s.calls ++ [.login userId passcode (apiAuthHeader s.token)],
               token := some tok, me := some u, calendarOpen := true }
  | .fail d =>
      { s with calls := s.calls ++ [.login userId passcode (apiAuthHeader s.token)],
               alerts := s.alerts ++ [jsStringOr d genericFailMessage] }

/-- The calendar's `events` source fetching a date window (app.js lines
155-162), possible whenever the calendar is mounted, also while a
confirmation is open. -/
def fetchStep (s : ClientState) (startStr endStr : String) : ClientState :=
  { s with calls := s.calls ++ [.list startStr endStr (apiAuthHeader s.token)] }

/-- A human- or calendar-triggered occurrence, with the data the human or the
server supplies at that moment (prompt answers, the login response). -/
inductive ClientEvent where
  | loginAttempt (userId passcode : String) (r : LoginResult)
  | logoutClick
  | fetchEvents (startStr endStr : String)
  | selectRange (titleResp : Option String) (startStr endStr : String) (allDay : Bool)
  | eventClick (ev : EventInfo) (actionResp titleResp : Option String)
  | modalOk (passRaw noteRaw : String)
  | modalCancel

/-- One step of the client. Modelled from the spec where the page's HTML/CSS
is not under src/: the login card and the calendar card are mutually
exclusive surfaces, the logout button is visible only while the calendar is
mounted, and the confirmation dialog is a blocking modal overlay — while it
is displayed only its OK/Cancel controls are interactable, though the
calendar's background date-window fetches stay possible (spec section 5).
Within those guards each branch is the corresponding app.js handler. -/
def step (s : ClientState) (e : ClientEvent) : ClientState :=
  match e with
  | .loginAttempt uid pw r =>
      if s.calendarOpen = false ∧ s.modal = none then loginStep s uid pw r else s
  | .logoutClick =>
      if s.calendarOpen = true ∧ s.modal = none then logoutStep s else s
  | .fetchEvents a b =>
      if s.calendarOpen = true then fetchStep s a b else s
  | .selectRange t a b ad =>
      if s.calendarOpen = true ∧ s.modal = none then selectStep s t a b ad else s
  | .eventClick ev ar tr =>
      if s.calendarOpen = true ∧ s.modal = none then eventClickStep s ev ar tr else s
  | .modalOk p n => modalOkStep s p n
  | .modalCancel => modalCancelStep s

/-- States the page can be in, starting from a fresh load. -/
inductive Reachable : ClientState → Prop where
  | init : Reachable initState
  | next {s : ClientState} (e : ClientEvent) : Reachable s → Reachable (step s e)

/-- States reachable from a given state by further steps. -/
inductive ReachableFrom : ClientState → ClientState → Prop where
  | refl {s : ClientState} : ReachableFrom s s
  | next {s t : ClientState} (e : ClientEvent) :
      ReachableFrom s t → ReachableFrom s (step t e)

/-- A flow stored in the modal slot passed the ownership gate for the `me`
current when it was stored (the create flow has no gate). -/
def flowOwned (me : Option User) : Flow → Prop
  | .create _ _ _ _ => True
  | .del ev => ∃ u, me = some u ∧ ev.ownerUserId = u.id
  | .edit ev _ => ∃ u, me = some u ∧ ev.ownerUserId = u.id

/-- The inductive invariant of the client: a mounted calendar implies a live
session, the modal slot implies a mounted calendar, carries a serial below
the counter, and holds a gate-checked flow, and every mutation call ever
issued carries a Bearer credential. -/
def Inv (s : ClientState) : Prop :=
  (s.calendarOpen = true → s.token ≠ none ∧ s.me ≠ none) ∧
  (∀ i f, s.modal = some (i, f) →
    s.calendarOpen = true ∧ i < s.counter ∧ flowOwned s.me f) ∧
  (∀ c ∈ s.calls, c.isMutation = true → ∃ t, c.auth = some ("Bearer " ++ t))

/-- `current()` of the Session Manager: who the client believes is logged
in (the global `me`). -/
def currentSession (s : ClientState) : Option User := s.me

/-- The logged-out configuration of the modelled globals. -/
def isLoggedOut (s : ClientState) : Prop :=
  s.token = none ∧ s.me = none ∧ s.calendarOpen = false

/-- A confirmation-request serial that is stale at `s`: it was handed out
before the current counter, it no longer occupies the handler slot, and it
has not resolved. -/
def StaleInv (i : Nat) (s : ClientState) : Prop :=
  i < s.counter ∧ (∀ f, s.modal ≠ some (i, f)) ∧ i ∉ s.resolvedIds

/-- Fixture: a directory user. -/
def userAlice : User := { id := "alice", name := "Alice", color := "#39f" }

/-- Fixture: a second directory user. -/
def userBob : User := { id := "bob", name := "Bob", color := "#f93" }

/-- Fixture: an event owned by bob. -/
def evOfBob : EventInfo :=
  { id := "ev1", title := "Meet", ownerUserId := "bob", ownerName := "Bob",
    note := none }

/-- Fixture: an event owned by alice carrying a note. -/
def evOfAlice : EventInfo :=
  { id := "ev2", title := "Gym", ownerUserId := "alice", ownerName := "Alice",
    note := some "bring shoes" }

/-- Fixture: the state right after alice logs in. -/
def loggedInAlice : ClientState :=
  step initState (.loginAttempt "alice" "pw" (.ok "tok" userAlice))

/-- Fixture: alice clicked her own event and chose delete, so the delete
confirmation is open. -/
def aliceDeleting : ClientState :=
  step loggedInAlice (.eventClick evOfAlice (some "delete") none)

/-- Fixture: alice submitted the delete confirmation. -/
def aliceDeleted : ClientState :=
  step aliceDeleting (.modalOk "pw2" "")

/-- Fixture: alice cancelled the first delete confirmation instead. -/
def aliceCancelled : ClientState :=
  step aliceDeleting .modalCancel

/-- Fixture: after cancelling, alice opened a second delete confirmation;
the first request's serial 0 is now stale. -/
def aliceDeletingAgain : ClientState :=
  step aliceCancelled (.eventClick evOfAlice (some "delete") none)

end CyberCal

namespace CyberCal

lemma flowCall_auth (f : Flow) (pc : PendingConfirmation) (tok : Option String) :
    (flowCall f pc tok).auth = apiAuthHeader tok := by
  cases f <;> rfl

lemma flowCall_passcodeOf (f : Flow) (pc : PendingConfirmation) (tok : Option String) :
    (flowCall f pc tok).passcodeOf = some pc.passcode := by
  cases f <;> rfl

lemma inv_initState : Inv initState := by
  refine ⟨by simp [initState], by simp [initState], by simp [initState]⟩

lemma inv_showModalStep (s : ClientState) (f : Flow) (h : Inv s)
    (hc : s.calendarOpen = true) (hf : flowOwned s.me f) :
    Inv (showModalStep s f) := by
  obtain ⟨h1, h2, h3⟩ := h
  refine ⟨fun _ => h1 hc, ?_, h3⟩
  intro i g hm
  simp only [showModalStep, Option.some.injEq, Prod.mk.injEq] at hm
  obtain ⟨hi, hg⟩ := hm
  refine ⟨hc, ?_, hg ▸ hf⟩
  simp only [showModalStep]
  omega

lemma inv_loginStep (s : ClientState) (uid pw : String) (r : LoginResult)
    (h : Inv s) (hm : s.modal = none) : Inv (loginStep s uid pw r) := by
  obtain ⟨h1, h2, h3⟩ := h
  have hcalls : ∀ c ∈ s.calls ++ [GatewayCall.login uid pw (apiAuthHeader s.token)],
      c.isMutation = true → ∃ t, c.auth = some ("Bearer " ++ t) := by
    intro c hc hmut
    rcases List.mem_append.mp hc with hin | hin
    · exact h3 c hin hmut
    · rw [List.mem_singleton.mp hin] at hmut
      simp [GatewayCall.isMutation] at hmut
  cases r with
  | ok tok u =>
      refine ⟨fun _ => ⟨by simp [loginStep], by simp [loginStep]⟩, ?_, ?_⟩
      · intro i f hmm
        simp only [loginStep, hm] at hmm
        exact absurd hmm (by simp)
      · simpa [loginStep] using hcalls
  | fail d =>
      refine ⟨fun hco => by simpa [loginStep] using h1 (by simpa [loginStep] using hco), ?_, ?_⟩
      · intro i f hmm
        simp only [loginStep, hm] at hmm
        exact absurd hmm (by simp)
      · simpa [loginStep] using hcalls

lemma inv_logoutStep (s : ClientState) (h : Inv s) (hm : s.modal = none) :
    Inv (logoutStep s) := by
  obtain ⟨h1, h2, h3⟩ := h
  refine ⟨fun hco => by simp [logoutStep] at hco, ?_, by simpa [logoutStep] using h3⟩
  intro i f hmm
  simp only [logoutStep, hm] at hmm
  exact absurd hmm (by simp)

lemma inv_fetchStep (s : ClientState) (a b : String) (h : Inv s) :
    Inv (fetchStep s a b) := by
  obtain ⟨h1, h2, h3⟩ := h
  refine ⟨fun hco => by simpa [fetchStep] using h1 (by simpa [fetchStep] using hco),
    fun i f hmm => by simpa [fetchStep] using h2 i f (by simpa [fetchStep] using hmm), ?_⟩
  intro c hc hmut
  simp only [fetchStep] at hc
  rcases List.mem_append.mp hc with hin | hin
  · exact h3 c hin hmut
  · rw [List.mem_singleton.mp hin] at hmut
    simp [GatewayCall.isMutation] at hmut

lemma inv_selectStep (s : ClientState) (t : Option String) (a b : String)
    (ad : Bool) (h : Inv s) (hc : s.calendarOpen = true) :
    Inv (selectStep s t a b ad) := by
  cases t with
  | none => exact h
  | some v =>
      simp only [selectStep]
      split_ifs with hv
      · exact h
      · exact inv_showModalStep s _ h hc trivial

lemma inv_eventClickStep (s : ClientState) (ev : EventInfo)
    (ar tr : Option String) (h : Inv s) (hc : s.calendarOpen = true) :
    Inv (eventClickStep s ev ar tr) := by
  obtain ⟨h1, h2, h3⟩ := h
  have halert : ∀ msg : String, Inv { s with alerts := s.alerts ++ [msg] } := by
    intro msg
    exact ⟨fun hco => h1 (by simpa using hco),
      fun i f hmm => by simpa using h2 i f (by simpa using hmm),
      fun c hcc hmut => h3 c (by simpa using hcc) hmut⟩
  cases hme : s.me with
  | none => simpa [eventClickStep, hme] using halert _
  | some u =>
      simp only [eventClickStep, hme]
      split_ifs with hown
      · cases ar with
        | none => exact ⟨h1, h2, h3⟩
        | some act =>
            simp only [eventClickOwned]
            split_ifs with hempty hdel hedit
            · exact ⟨h1, h2, h3⟩
            · exact inv_showModalStep s _ ⟨h1, h2, h3⟩ hc ⟨u, hme, hown⟩
            · exact inv_showModalStep s _ ⟨h1, h2, h3⟩ hc ⟨u, hme, hown⟩
            · simpa [hme] using halert _
      · simpa [hme] using halert _

lemma inv_modalOkStep (s : ClientState) (p n : String) (h : Inv s) :
    Inv (modalOkStep s p n) := by
  obtain ⟨h1, h2, h3⟩ := h
  cases hm : s.modal with
  | none => simpa [modalOkStep, hm] using ⟨h1, h2, h3⟩
  | some x =>
      obtain ⟨i, f⟩ := x
      obtain ⟨hco, _, _⟩ := h2 i f hm
      obtain ⟨htok, _⟩ := h1 hco
      obtain ⟨tk, htk⟩ := Option.ne_none_iff_exists'.mp htok
      refine ⟨fun _ => by simpa [modalOkStep, hm] using h1 hco, ?_, ?_⟩
      · intro j g hmm
        simp only [modalOkStep, hm] at hmm
        exact absurd hmm (by simp)
      · intro c hcc hmut
        simp only [modalOkStep, hm] at hcc
        rcases List.mem_append.mp hcc with hin | hin
        · exact h3 c hin hmut
        · rw [List.mem_singleton.mp hin]
          exact ⟨tk, by rw [flowCall_auth, htk]; rfl⟩

lemma inv_modalCancelStep (s : ClientState) (h : Inv s) :
    Inv (modalCancelStep s) := by
  obtain ⟨h1, h2, h3⟩ := h
  cases hm : s.modal with
  | none => simpa [modalCancelStep, hm] using ⟨h1, h2, h3⟩
  | some x =>
      refine ⟨fun hco => by simpa [modalCancelStep, hm] using h1 (by simpa [modalCancelStep, hm] using hco), ?_, ?_⟩
      · intro j g hmm
        simp only [modalCancelStep, hm] at hmm
        exact absurd hmm (by simp)
      · intro c hcc hmut
        simp only [modalCancelStep, hm] at hcc
        exact h3 c hcc hmut

lemma inv_step (s : ClientState) (e : ClientEvent) (h : Inv s) : Inv (step s e) := by
  cases e with
  | loginAttempt uid pw r =>
      simp only [step]
      split_ifs with hc
      · exact inv_loginStep s uid pw r h hc.2
      · exact h
  | logoutClick =>
      simp only [step]
      split_ifs with hc
      · exact inv_logoutStep s h hc.2
      · exact h
  | fetchEvents a b =>
      simp only [step]
      split_ifs with hc
      · exact inv_fetchStep s a b h
      · exact h
  | selectRange t a b ad =>
      simp only [step]
      split_ifs with hc
      · exact inv_selectStep s t a b ad h hc.1
      · exact h
  | eventClick ev ar tr =>
      simp only [step]
      split_ifs with hc
      · exact inv_eventClickStep s ev ar tr h hc.1
      · exact h
  | modalOk p n => exact inv_modalOkStep s p n h
  | modalCancel => exact inv_modalCancelStep s h

lemma inv_reachable (s : ClientState) (h : Reachable s) : Inv s := by
  induction h with
  | init => exact inv_initState
  | next e _ ih => exact inv_step _ e ih

end CyberCal

namespace CyberCal

lemma stale_showModalStep (i : Nat) (s : ClientState) (f : Flow)
    (h : StaleInv i s) : StaleInv i (showModalStep s f) := by
  obtain ⟨h1, h2, h3⟩ := h
  refine ⟨?_, ?_, ?_⟩
  · simp only [showModalStep]; omega
  · intro g hg
    simp only [showModalStep, Option.some.injEq, Prod.mk.injEq] at hg
    omega
  · simpa [showModalStep] using h3

lemma stale_step (i : Nat) (s : ClientState) (e : ClientEvent)
    (h : StaleInv i s) : StaleInv i (step s e) := by
  obtain ⟨h1, h2, h3⟩ := h
  cases e with
  | loginAttempt uid pw r =>
      simp only [step]
      split_ifs with hc
      · cases r with
        | ok tok u => exact ⟨by simpa [loginStep] using h1,
            by simpa [loginStep] using h2, by simpa [loginStep] using h3⟩
        | fail d => exact ⟨by simpa [loginStep] using h1,
            by simpa [loginStep] using h2, by simpa [loginStep] using h3⟩
      · exact ⟨h1, h2, h3⟩
  | logoutClick =>
      simp only [step]
      split_ifs with hc
      · exact ⟨by simpa [logoutStep] using h1,
          by simpa [logoutStep] using h2, by simpa [logoutStep] using h3⟩
      · exact ⟨h1, h2, h3⟩
  | fetchEvents a b =>
      simp only [step]
      split_ifs with hc
      · exact ⟨by simpa [fetchStep] using h1,
          by simpa [fetchStep] using h2, by simpa [fetchStep] using h3⟩
      · exact ⟨h1, h2, h3⟩
  | selectRange t a b ad =>
      simp only [step]
      split_ifs with hc
      · cases t with
        | none => exact ⟨h1, h2, h3⟩
        | some v =>
            simp only [selectStep]
            split_ifs with hv
            · exact ⟨h1, h2, h3⟩
            · exact stale_showModalStep i s _ ⟨h1, h2, h3⟩
      · exact ⟨h1, h2, h3⟩
  | eventClick ev ar tr =>
      simp only [step]
      split_ifs with hc
      · cases hme : s.me with
        | none => exact ⟨by simpa [eventClickStep, hme] using h1,
            by simpa [eventClickStep, hme] using h2,
            by simpa [eventClickStep, hme] using h3⟩
        | some u =>
            simp only [eventClickStep, hme]
            split_ifs with hown
            · cases ar with
              | none => exact ⟨h1, h2, h3⟩
              | some act =>
                  simp only [eventClickOwned]
                  split_ifs with hempty hdel hedit
                  · exact ⟨h1, h2, h3⟩
                  · exact stale_showModalStep i s _ ⟨h1, h2, h3⟩
                  · exact stale_showModalStep i s _ ⟨h1, h2, h3⟩
                  · exact ⟨by simpa using h1, by simpa using h2, by simpa using h3⟩
            · exact ⟨by simpa using h1, by simpa using h2, by simpa using h3⟩
      · exact ⟨h1, h2, h3⟩
  | modalOk p n =>
      cases hm : s.modal with
      | none =>
          have hstep : step s (.modalOk p n) = s := by simp [step, modalOkStep, hm]
          rw [hstep]; exact ⟨h1, h2, h3⟩
      | some x =>
          obtain ⟨j, f⟩ := x
          have hji : j ≠ i := fun hj => h2 f (hj ▸ hm)
          refine ⟨by simpa [step, modalOkStep, hm] using h1, ?_, ?_⟩
          · intro g hg
            simp [step, modalOkStep, hm] at hg
          · intro hmem
            simp only [step, modalOkStep, hm, List.mem_append,
              List.mem_singleton] at hmem
            rcases hmem with hmem | hmem
            · exact h3 hmem
            · exact hji hmem.symm
  | modalCancel =>
      cases hm : s.modal with
      | none =>
          have hstep : step s .modalCancel = s := by simp [step, modalCancelStep, hm]
          rw [hstep]; exact ⟨h1, h2, h3⟩
      | some x =>
          refine ⟨by simpa [step, modalCancelStep, hm] using h1, ?_, ?_⟩
          · intro g hg
            simp [step, modalCancelStep, hm] at hg
          · intro hmem
            simp only [step, modalCancelStep, hm] at hmem
            exact h3 hmem

lemma stale_from {s s' : ClientState} (i : Nat) (hr : ReachableFrom s s')
    (h : StaleInv i s) : StaleInv i s' := by
  induction hr with
  | refl => exact h
  | next e _ ih => exact stale_step i _ e ih

end CyberCal

namespace CyberCal

/-- C1: for every event and active session whose user id differs from the
event's owner id, a click on the event makes `eventClick` refuse at once
with an alert naming the event's actual owner, leaves the confirmation
slot untouched (no prompt is shown), and issues no Gateway call — in
particular no update or delete call for that event under that session. -/
theorem eventClick_foreign_owner_refused (s : ClientState) (ev : EventInfo)
    (ar tr : Option String) (u : User) (hme : s.me = some u)
    (hown : ev.ownerUserId ≠ u.id) :
    eventClickStep s ev ar tr
      = { s with alerts := s.alerts ++ [notYourEventMessage ev.ownerName] } ∧
    (eventClickStep s ev ar tr).modal = s.modal ∧
    (eventClickStep s ev ar tr).calls = s.calls ∧
    notYourEventMessage ev.ownerName
      = "이 일정은 " ++ ev.ownerName ++ " 작성이라 너는 손대면 안 됨." := by
  have h1 : eventClickStep s ev ar tr
      = { s with alerts := s.alerts ++ [notYourEventMessage ev.ownerName] } := by
    simp [eventClickStep, hme, hown]
  exact ⟨h1, by rw [h1], by rw [h1], rfl⟩

/-- Witness for C1: alice clicks bob's event and is refused; no call is
issued. -/
theorem eventClick_foreign_owner_refused_witness :
    loggedInAlice.me = some userAlice ∧ evOfBob.ownerUserId ≠ userAlice.id ∧
    (eventClickStep loggedInAlice evOfBob (some "edit") none).calls
      = loggedInAlice.calls ∧
    (eventClickStep loggedInAlice evOfBob (some "edit") none).modal
      = loggedInAlice.modal := by
  have h := eventClick_foreign_owner_refused loggedInAlice evOfBob (some "edit")
    none userAlice (by decide) (by decide)
  exact ⟨by decide, by decide, h.2.2.1, h.2.1⟩

/-- C10: with no active session (`me` null), `eventClick` treats every event
as foreign: it surfaces the not-your-event alert and returns, opening no
confirmation and issuing no Gateway call. -/
theorem eventClick_no_session_refused (s : ClientState) (ev : EventInfo)
    (ar tr : Option String) (hme : s.me = none) :
    eventClickStep s ev ar tr
      = { s with alerts := s.alerts ++ [notYourEventMessage ev.ownerName] } ∧
    (eventClickStep s ev ar tr).modal = s.modal ∧
    (eventClickStep s ev ar tr).calls = s.calls := by
  have h1 : eventClickStep s ev ar tr
      = { s with alerts := s.alerts ++ [notYourEventMessage ev.ownerName] } := by
    simp [eventClickStep, hme]
  exact ⟨h1, by rw [h1], by rw [h1]⟩

/-- Witness for C10: a click on the fresh page (no session) is refused with
no call and no confirmation. -/
theorem eventClick_no_session_refused_witness :
    initState.me = none ∧
    (eventClickStep initState evOfBob (some "delete") none).calls
      = initState.calls ∧
    (eventClickStep initState evOfBob (some "delete") none).modal
      = initState.modal := by
  have h := eventClick_no_session_refused initState evOfBob (some "delete")
    none (by decide)
  exact ⟨by decide, h.2.2, h.2.1⟩

/-- C2: `api` attaches the session token as a Bearer credential whenever a
token is set, every mutation call the client ever issues carries such a
credential (so no mutation is attempted without a session), and with no
session `eventClick` fails fast: no network call, no confirmation. -/
theorem gateway_calls_bear_token :
    (∀ t : String, apiAuthHeader (some t) = some ("Bearer " ++ t)) ∧
    (∀ s : ClientState, Reachable s → ∀ c ∈ s.calls, c.isMutation = true →
      ∃ t, c.auth = some ("Bearer " ++ t)) ∧
    (∀ (s : ClientState) (ev : EventInfo) (ar tr : Option String),
      s.me = none →
      (eventClickStep s ev ar tr).calls = s.calls ∧
      (eventClickStep s ev ar tr).modal = s.modal) := by
  refine ⟨fun t => rfl,
    fun s hs c hc hmut => (inv_reachable s hs).2.2 c hc hmut, ?_⟩
  intro s ev ar tr hme
  constructor <;> simp [eventClickStep, hme]

/-- Witness for C2: in the reachable state where alice logged in and
confirmed a delete, the issued delete call carries her Bearer token. -/
theorem gateway_calls_bear_token_witness :
    Reachable aliceDeleted ∧
    GatewayCall.deleteEvent "ev2" "pw2" (some ("Bearer " ++ "tok"))
      ∈ aliceDeleted.calls ∧
    (GatewayCall.deleteEvent "ev2" "pw2" (some ("Bearer " ++ "tok"))).isMutation
      = true ∧
    ∃ t, (GatewayCall.deleteEvent "ev2" "pw2"
      (some ("Bearer " ++ "tok"))).auth = some ("Bearer " ++ t) := by
  have hr : Reachable aliceDeleted :=
    Reachable.next _ (Reachable.next _ (Reachable.next _ Reachable.init))
  exact ⟨hr, by decide, by decide,
    gateway_calls_bear_token.2.1 aliceDeleted hr _ (by decide) (by decide)⟩

end CyberCal

namespace CyberCal

/-- C3 counterexample: cancellation is not a distinguished outcome — it is
told apart from other failures only by comparing the message string to
`취소`. A Forbidden Gateway response (status 403, a different error kind per
the spec's taxonomy) whose `detail` is exactly `취소` produces the very same
error value as pressing Cancel, and the caller's catch swallows it silently
exactly like a cancellation. -/
theorem cancel_collides_with_forbidden_detail :
    apiResult { status := 403, detail := some cancelMessage }
      = ApiResult.err cancelMessage ∧
    surfaceError cancelMessage = none ∧
    specKindOf 403 = ErrorKind.forbidden ∧
    ErrorKind.forbidden ≠ ErrorKind.generic := by
  refine ⟨by decide, by decide, by decide, by decide⟩

/-- C3 amended: when the human cancels an open confirmation, the request
fails with the `취소` rejection, the caller issues no Gateway call and
surfaces no error; cancellation is distinguished from other failures only
by the message string equalling `취소`, not as a separate error kind. -/
theorem cancel_silent_no_call (s : ClientState) (hm : s.modal ≠ none) :
    (modalCancelStep s).calls = s.calls ∧
    (modalCancelStep s).alerts = s.alerts ∧
    (modalCancelStep s).modal = none ∧
    surfaceError cancelMessage = none ∧
    (∀ m : String, m ≠ cancelMessage → surfaceError m = some m) := by
  obtain ⟨x, hx⟩ := Option.ne_none_iff_exists'.mp hm
  refine ⟨?_, ?_, ?_, by decide, fun m hne => if_neg hne⟩
  · simp [modalCancelStep, hx]
  · simp [modalCancelStep, hx, surfaceError]
  · simp [modalCancelStep, hx]

/-- Witness for C3's amended theorem: alice cancels the open delete
confirmation; nothing is called and nothing is alerted. -/
theorem cancel_silent_no_call_witness :
    aliceDeleting.modal ≠ none ∧
    (modalCancelStep aliceDeleting).calls = aliceDeleting.calls ∧
    (modalCancelStep aliceDeleting).alerts = aliceDeleting.alerts := by
  have h := cancel_silent_no_call aliceDeleting (by decide)
  exact ⟨by decide, h.1, h.2.1⟩

/-- C4: a submitted confirmation carries the entered passcode with
surrounding whitespace trimmed — an empty trimmed passcode is still
forwarded as-is into the issued Gateway call, with no local rejection —
and the note is trimmed, the create body normalizing a blank note to
absent. -/
theorem submit_trims_and_forwards :
    (∀ p n : String, (submitModal p n).passcode = jsTrim p ∧
      (submitModal p n).note = jsTrim n) ∧
    (∀ (s : ClientState) (i : Nat) (f : Flow) (p n : String),
      s.modal = some (i, f) →
      (modalOkStep s p n).calls
        = s.calls ++ [flowCall f (submitModal p n) s.token] ∧
      (flowCall f (submitModal p n) s.token).passcodeOf = some (jsTrim p)) ∧
    (∀ (t st en : String) (ad : Bool) (tok : Option String) (p n : String),
      flowCall (.create t st en ad) (submitModal p n) tok
        = .createEvent t st en ad
            (if jsTrim n = "" then none else some (jsTrim n)) (jsTrim p)
            (apiAuthHeader tok)) := by
  refine ⟨fun p n => ⟨rfl, rfl⟩, ?_, fun t st en ad tok p n => rfl⟩
  intro s i f p n hm
  exact ⟨by simp [modalOkStep, hm], flowCall_passcodeOf f _ s.token⟩

/-- Witness for C4: alice submits the delete confirmation with a padded
passcode and a blank note; the issued call carries the trimmed passcode. -/
theorem submit_trims_and_forwards_witness :
    aliceDeleting.modal = some (0, Flow.del evOfAlice) ∧
    (modalOkStep aliceDeleting " pw2 " " ").calls
      = aliceDeleting.calls
        ++ [flowCall (Flow.del evOfAlice) (submitModal " pw2 " " ")
              aliceDeleting.token] ∧
    (flowCall (Flow.del evOfAlice) (submitModal " pw2 " " ")
      aliceDeleting.token).passcodeOf = some (jsTrim " pw2 ") := by
  have h := submit_trims_and_forwards.2.1 aliceDeleting 0 (Flow.del evOfAlice)
    " pw2 " " " (by decide)
  exact ⟨by decide, h.1, h.2⟩

/-- C5: the confirmation surface is singular — `showModal` installs the new
request in the one handler slot, superseding whatever request occupied it —
and a request that is stale (no longer in the slot, unresolved) can never
resolve in any later state, so it can never drive a mutation. -/
theorem single_outstanding_confirmation :
    (∀ (s : ClientState) (f : Flow),
      (showModalStep s f).modal = some (s.counter, f)) ∧
    (∀ (s s' : ClientState) (i : Nat), ReachableFrom s s' →
      i < s.counter → (∀ f, s.modal ≠ some (i, f)) → i ∉ s.resolvedIds →
      i ∉ s'.resolvedIds) := by
  exact ⟨fun s f => rfl,
    fun s s' i hr h1 h2 h3 => (stale_from i hr ⟨h1, h2, h3⟩).2.2⟩

/-- Witness for C5: alice's first (cancelled) confirmation request, serial
0, never resolves even after a second request is opened and submitted. -/
theorem single_outstanding_confirmation_witness :
    0 < aliceDeletingAgain.counter ∧
    0 ∉ aliceDeletingAgain.resolvedIds ∧
    0 ∉ (step aliceDeletingAgain (.modalOk "x" "")).resolvedIds := by
  refine ⟨by decide, by decide, ?_⟩
  apply single_outstanding_confirmation.2 aliceDeletingAgain _ 0
    (ReachableFrom.next _ ReachableFrom.refl) (by decide) ?_ (by decide)
  intro f hcon
  have hm : aliceDeletingAgain.modal = some (1, Flow.del evOfAlice) := by decide
  rw [hm] at hcon
  simp at hcon

end CyberCal

namespace CyberCal

/-- C6 counterexample: the client does not classify failures by status
semantics. An unauthorized (401) and a not-found (404) response with the
same `detail` produce identical client outcomes, although the spec's
status-semantics classification assigns them different kinds. -/
theorem api_does_not_classify_status :
    apiResult { status := 401, detail := some "x" }
      = apiResult { status := 404, detail := some "x" } ∧
    specKindOf 401 ≠ specKindOf 404 := by
  refine ⟨by decide, by decide⟩

/-- C6 amended: for every non-success response the client surfaces the
`detail` field verbatim as the message (falling back to the generic
`요청 실패` when `detail` is absent or blank) and treats all non-success
statuses identically — the outcome depends only on `detail`, with no kind
classification from the status. -/
theorem api_error_detail_verbatim :
    (∀ (st : Nat) (d : String),
      resOk { status := st, detail := some d } = false → d ≠ "" →
      apiResult { status := st, detail := some d } = .err d) ∧
    (∀ st : Nat, resOk { status := st, detail := none } = false →
      apiResult { status := st, detail := none } = .err genericFailMessage) ∧
    (∀ r r' : HttpResponse, resOk r = false → resOk r' = false →
      r.detail = r'.detail → apiResult r = apiResult r') := by
  refine ⟨?_, ?_, ?_⟩
  · intro st d hok hd
    simp [apiResult, hok, jsStringOr, hd]
  · intro st hok
    simp [apiResult, hok, jsStringOr]
  · intro r r' h h' hd
    simp [apiResult, h, h', hd]

/-- Witness for C6's amended theorem: a 500 response with detail `boom`
surfaces exactly `boom`. -/
theorem api_error_detail_verbatim_witness :
    resOk { status := 500, detail := some "boom" } = false ∧
    apiResult { status := 500, detail := some "boom" }
      = ApiResult.err "boom" :=
  ⟨by decide, api_error_detail_verbatim.1 500 "boom" (by decide) (by decide)⟩

/-- C7 counterexample: the client does not surface one single generic
message for failed logins — two failure responses with different `detail`
fields produce two different alerts, so the human can distinguish them.
Whether the backend actually sends distinct details for unknown user and
bad passcode is outside src/, but the client guarantees no collapse. -/
theorem login_failure_messages_differ :
    (step initState
        (.loginAttempt "alice" "pw" (.fail (some "unknown user")))).alerts
      ≠ (step initState
        (.loginAttempt "alice" "pw" (.fail (some "bad passcode")))).alerts := by
  decide

/-- C7 amended: on a failed login the client surfaces the response's
`detail` verbatim (the generic `요청 실패` only when `detail` is absent or
blank); unknown user and bad passcode are indistinguishable to the human
exactly when the backend returns the same `detail` for both, which the
client neither enforces nor can observe. -/
theorem login_failure_surfaces_detail :
    (∀ (s : ClientState) (uid pw : String) (d : Option String),
      s.calendarOpen = false → s.modal = none →
      (step s (.loginAttempt uid pw (.fail d))).alerts
        = s.alerts ++ [jsStringOr d genericFailMessage]) ∧
    (∀ (s : ClientState) (uid1 pw1 uid2 pw2 : String) (d : Option String),
      s.calendarOpen = false → s.modal = none →
      (step s (.loginAttempt uid1 pw1 (.fail d))).alerts
        = (step s (.loginAttempt uid2 pw2 (.fail d))).alerts) := by
  constructor
  · intro s uid pw d hco hmo
    simp [step, hco, hmo, loginStep]
  · intro s uid1 pw1 uid2 pw2 d hco hmo
    simp [step, hco, hmo, loginStep]

/-- Witness for C7's amended theorem: a failed login on the fresh page with
detail `nope` alerts exactly `nope`. -/
theorem login_failure_surfaces_detail_witness :
    initState.calendarOpen = false ∧
    (step initState (.loginAttempt "a" "p" (.fail (some "nope")))).alerts
      = initState.alerts ++ [jsStringOr (some "nope") genericFailMessage] :=
  ⟨rfl, login_failure_surfaces_detail.1 initState "a" "p" (some "nope") rfl rfl⟩

/-- C8: in the edit flow a dismissed title prompt defaults the new title to
the event's current title (the prompt is prefilled with it), and a blank
note field makes the update body carry the event's existing note. -/
theorem edit_defaults_title_and_note :
    (∀ (resp : Option String) (cur : String), resp = none →
      editNewTitle resp cur = cur) ∧
    (∀ (s : ClientState) (ev : EventInfo) (u : User),
      s.me = some u → ev.ownerUserId = u.id →
      (eventClickStep s ev (some "edit") none).modal
        = some (s.counter, Flow.edit ev ev.title)) ∧
    (∀ (ev : EventInfo) (newTitle p n : String) (tok : Option String),
      jsTrim n = "" →
      (ev.note = none ∨ ∃ sn, ev.note = some sn ∧ sn ≠ "") →
      flowCall (.edit ev newTitle) (submitModal p n) tok
        = .updateEvent ev.id newTitle ev.note (jsTrim p) (apiAuthHeader tok)) := by
  refine ⟨fun resp cur h => by simp [editNewTitle, h], ?_, ?_⟩
  · intro s ev u hme hown
    simp [eventClickStep, hme, hown, eventClickOwned, showModalStep, editNewTitle]
  · intro ev newTitle p n tok hn hwf
    rcases hwf with hwf | ⟨sn, hsn, hne⟩
    · simp [flowCall, submitModal, jsNoteChain, hn, hwf]
    · simp [flowCall, submitModal, jsNoteChain, hn, hsn, hne]

/-- Witness for C8: alice edits her own event leaving the title prompt
dismissed and the note blank; the flow keeps the current title and the
update body carries the existing note. -/
theorem edit_defaults_title_and_note_witness :
    loggedInAlice.me = some userAlice ∧
    evOfAlice.ownerUserId = userAlice.id ∧
    (eventClickStep loggedInAlice evOfAlice (some "edit") none).modal
      = some (loggedInAlice.counter, Flow.edit evOfAlice evOfAlice.title) ∧
    jsTrim " " = "" ∧
    flowCall (.edit evOfAlice "Gym2") (submitModal "pw" " ") (some "tok")
      = .updateEvent evOfAlice.id "Gym2" evOfAlice.note (jsTrim "pw")
          (apiAuthHeader (some "tok")) := by
  refine ⟨by decide, by decide, ?_, by decide, ?_⟩
  · exact edit_defaults_title_and_note.2.1 loggedInAlice evOfAlice userAlice
      (by decide) (by decide)
  · exact edit_defaults_title_and_note.2.2 evOfAlice "Gym2" "pw" " "
      (some "tok") (by decide) (Or.inr ⟨"bring shoes", by decide, by decide⟩)

/-- C9: `logout` clears the session unconditionally, is idempotent and a
no-op when already logged out, leaves `current()` reporting no session
after any call, and unmounts the calendar so its date-range querying is
stopped (a fetch after logout is a no-op). -/
theorem logout_clears_and_idempotent :
    (∀ s : ClientState, isLoggedOut (logoutStep s)) ∧
    (∀ s : ClientState, isLoggedOut s → logoutStep s = s) ∧
    (∀ s : ClientState, logoutStep (logoutStep s) = logoutStep s) ∧
    (∀ s : ClientState, currentSession (logoutStep s) = none) ∧
    (∀ (s : ClientState) (a b : String),
      step (logoutStep s) (.fetchEvents a b) = logoutStep s) := by
  refine ⟨fun s => ⟨rfl, rfl, rfl⟩, ?_, fun s => rfl, fun s => rfl, ?_⟩
  · rintro s ⟨h1, h2, h3⟩
    cases s
    simp only [logoutStep] at h1 h2 h3 ⊢
    simp_all
  · intro s a b
    simp [step, logoutStep]

/-- Witness for C9: logging out of the fresh (already logged-out) page is a
no-op. -/
theorem logout_clears_and_idempotent_witness :
    isLoggedOut initState ∧ logoutStep initState = initState :=
  ⟨⟨rfl, rfl, rfl⟩, logout_clears_and_idempotent.2.1 initState ⟨rfl, rfl, rfl⟩⟩

end CyberCal
